import Mathlib

/-!
# Verification of pushmanager's git queue engine (`pushmanager/core/git.py`)

This file gives a shallow embedding, in Lean 4, of the core of pushmanager's
change-request verification and conflict-detection engine, and proves (or
refutes) the frozen claims about it.

Conventions of the embedding:

* Requests are records mirroring the `push_requests` row dictionaries used by
  the code; the `tags` field is kept in its stored textual (comma-separated)
  form, so that the code's raw substring tests (`'conflict' in req['tags']`)
  translate directly.
* External effects (store updates, queue insertions, e-mails, chat messages,
  webhooks) are collected in effect records; the database, the upstream
  `ls-remote` answers, merge outcomes and reachability answers are supplied by
  environment records, one field per external observation the code makes.
* Git working-copy state (for the scoped mutators) is a small explicit state:
  an association list of branch heads plus the checked-out branch.
* `CommandFailed` (`GitException`) outcomes are modelled with `Option`/`Except`
  values; code paths that Python would crash on (`TypeError` on a missing row)
  surface as explicit error values.
-/

namespace Pushmanager

/-- Python's substring test `needle in hay`, on the underlying characters. -/
def substr (needle hay : String) : Bool :=
  decide (needle.data <:+: hay.data)

/-- Python's `line.startswith(p)`. -/
def strPrefix (p s : String) : Bool :=
  decide (p.data <+: s.data)

/-! ## Comma-separated tag strings

`add_to_tags_str`, `del_from_tags_str` and `tags_contain` live in
`pushmanager/core/util.py`, which is not part of the sources under
verification; they are modelled from the spec ("treat as an ordered set;
provide AddTag, RemoveTag, HasTag primitives; persist in the same textual
form"). -/

/-- Split a character list on `','` (helper for decoding tag strings). -/
def splitComma : List Char → List (List Char)
  | [] => [[]]
  | c :: cs =>
    if c = ',' then [] :: splitComma cs
    else (c :: (splitComma cs).headD []) :: (splitComma cs).tail

/-- Modelled from the spec: decode a stored comma-separated tag string into its
ordered list of (non-empty) tags. -/
def tags_str_to_list (s : String) : List String :=
  ((splitComma s.data).map (fun w => String.mk w)).filter (fun t => ¬ t = "")

/-- Modelled from the spec: re-encode an ordered list of tags in the stored
comma-separated textual form. -/
def tags_list_to_str : List String → String
  | [] => ""
  | [t] => t
  | t :: ts => t ++ "," ++ tags_list_to_str ts

/-- Modelled from the spec: `add_to_tags_str` (missing `pushmanager/core/util.py`) —
append the tag to the ordered tag set unless already present. -/
def add_to_tags_str (tags tag : String) : String :=
  if tag ∈ tags_str_to_list tags then tags_list_to_str (tags_str_to_list tags)
  else tags_list_to_str (tags_str_to_list tags ++ [tag])

/-- Modelled from the spec: `del_from_tags_str` (missing `pushmanager/core/util.py`) —
remove every occurrence of the tag from the ordered tag set. -/
def del_from_tags_str (tags tag : String) : String :=
  tags_list_to_str ((tags_str_to_list tags).filter (fun t => ¬ t = tag))

/-- Modelled from the spec: `tags_contain` (missing `pushmanager/core/util.py`) —
whether the tag set overlaps the given list of tags. -/
def tags_contain (tags : String) (l : List String) : Bool :=
  (tags_str_to_list tags).any (fun t => t ∈ l)

/-- Membership of a single tag in a stored tag string. -/
def hasTag (tag tags : String) : Bool :=
  tag ∈ tags_str_to_list tags

/-! ## Tag transforms performed by the engine (`pushmanager/core/git.py`)

Each definition is the exact composition of `add_to_tags_str` /
`del_from_tags_str` calls performed at the corresponding store-update site. -/

/-- `GitQueue.verify_branch` success path (git.py:1183-1184). -/
def verify_ok_tags (tags : String) : String :=
  del_from_tags_str (add_to_tags_str tags "git-ok") "git-error"

/-- `GitQueue.verify_branch_failure` (git.py:1254-1255). -/
def verify_error_tags (tags : String) : String :=
  del_from_tags_str (add_to_tags_str tags "git-error") "git-ok"

/-- `GitQueue._test_pickme_conflict_master` failure path (git.py:971-972). -/
def conflict_master_tags (tags : String) : String :=
  del_from_tags_str (add_to_tags_str tags "conflict-master") "no-conflicts"

/-- `GitQueue._test_pickme_conflict_pickme` conflict path (git.py:880-881). -/
def conflict_pickme_tags (tags : String) : String :=
  del_from_tags_str (add_to_tags_str tags "conflict-pickme") "no-conflicts"

/-- `GitQueue._clear_pickme_conflict_details` (git.py:915-917). -/
def clear_conflict_tags (tags : String) : String :=
  del_from_tags_str (del_from_tags_str
    (del_from_tags_str tags "conflict-master") "conflict-pickme") "no-conflicts"

/-- `GitQueue.test_pickme_conflicts` no-conflicts path (git.py:1076); in the
code it is guarded by `'conflict' in req['tags']`. -/
def no_conflicts_tags (tags : String) : String :=
  add_to_tags_str tags "no-conflicts"

/-- Some tag starting with `conflict-` is present. -/
def has_conflict_prefix_tag (tags : String) : Bool :=
  (tags_str_to_list tags).any (fun t => strPrefix "conflict-" t)

/-- `git-ok` and `git-error` are not both present. -/
def git_tags_ok (tags : String) : Bool :=
  !(hasTag "git-ok" tags && hasTag "git-error" tags)

/-- `no-conflicts` is not present alongside any `conflict-*` tag. -/
def conflict_tags_ok (tags : String) : Bool :=
  !(hasTag "no-conflicts" tags && has_conflict_prefix_tag tags)

/-- The spec's T1 invariant on a committed tag set. -/
def tag_invariant (tags : String) : Bool :=
  git_tags_ok tags && conflict_tags_ok tags

/-! ## Working-copy state and the scoped mutators (git.py:39-113, 252-278)

The working copy is abstracted as the mapping from branch names to commit
identifiers together with the checked-out branch.  Submodule `sync`/`update`
calls do not change this abstraction and are modelled as no-ops.  A body run
inside a scope is an arbitrary state transformer that may additionally raise
(`GitException` or anything else), modelled as the `Option String` error
component of its result. -/

/-- Branch-head lookup (`git rev-parse BRANCH`). -/
def lookupB : List (String × String) → String → Option String
  | [], _ => none
  | p :: rest, b => if p.1 = b then some p.2 else lookupB rest b

/-- Set (or create) a branch head. -/
def setB : List (String × String) → String → String → List (String × String)
  | [], b, sha => [(b, sha)]
  | p :: rest, b, sha =>
    if p.1 = b then (b, sha) :: rest else p :: setB rest b sha

/-- Remove a branch. -/
def removeB : List (String × String) → String → List (String × String)
  | [], _ => []
  | p :: rest, b => if p.1 = b then removeB rest b else p :: removeB rest b

/-- A working copy: branch heads plus the checked-out branch. -/
structure GitRepo where
  branches : List (String × String)
  head : String
deriving DecidableEq, Repr

/-- `git rev-parse REF` on the working copy. -/
def rev_parse (s : GitRepo) (r : String) : Option String :=
  lookupB s.branches r

/-- `git reset --hard SHA`: move the checked-out branch to `sha`. -/
def reset_hard (s : GitRepo) (sha : String) : GitRepo :=
  { s with branches := setB s.branches s.head sha }

/-- `git_reset_to_ref` (git.py:86-113): hard reset followed by quiet submodule
sync and update (no-ops in this abstraction). -/
def git_reset_to_ref (starting_ref : String) (s : GitRepo) : GitRepo :=
  reset_hard s starting_ref

/-- `git checkout BRANCH`; fails if the branch does not exist. -/
def checkout (s : GitRepo) (b : String) : Option GitRepo :=
  if (lookupB s.branches b).isSome then some { s with head := b } else none

/-- `git checkout FROMREF -b NEW`: create `newB` at `fromRef` and check it
out; fails if `newB` already exists or `fromRef` does not resolve. -/
def checkout_new_branch (s : GitRepo) (fromRef newB : String) : Option GitRepo :=
  if (lookupB s.branches newB).isSome then none
  else
    match lookupB s.branches fromRef with
    | none => none
    | some sha => some ⟨setB s.branches newB sha, newB⟩

/-- `git branch -D B`; fails if `b` is the checked-out branch or missing. -/
def branch_delete (s : GitRepo) (b : String) : Option GitRepo :=
  if b = s.head then none
  else if (lookupB s.branches b).isSome then
    some { s with branches := removeB s.branches b }
  else none

/-- A scope body: transforms the state and optionally raises. -/
def GitBody : Type := GitRepo → GitRepo × Option String

/-- `git_merge_context_manager` (git.py:252-278): record the current commit of
`test_branch` with `rev-parse` on entry, run the body, and on ANY exit reset
hard to the recorded commit; the body's exception, if any, is re-raised. -/
def git_merge_context_manager (test_branch : String) (body : GitBody)
    (s : GitRepo) : GitRepo × Option String :=
  match rev_parse s test_branch with
  | none => (s, some "GitException: git rev-parse")
  | some starting_ref =>
    let r := body s
    (git_reset_to_ref starting_ref r.1, r.2)

/-- Best-effort `git branch -D` with the `GitException` swallowed
(git.py:47-51). -/
def branch_delete_swallow (s : GitRepo) (b : String) : GitRepo :=
  match branch_delete s b with
  | some s' => s'
  | none => s

/-- `git_branch_context_manager` (git.py:39-83): best-effort delete a stale
`test_branch` (errors swallowed), create it from `origin/master` and check it
out, run the body, and on ANY exit check out `master` and force-delete
`test_branch`.  A cleanup failure surfaces (as in Python, it replaces the
body's exception); otherwise the body's exception is re-raised. -/
def git_branch_context_manager (test_branch : String) (body : GitBody)
    (s : GitRepo) : GitRepo × Option String :=
  match checkout_new_branch (branch_delete_swallow s test_branch)
      "origin/master" test_branch with
  | none => (branch_delete_swallow s test_branch,
             some "GitException: git checkout origin/master -b")
  | some s1 =>
    let r := body s1
    match checkout r.1 "master" with
    | none => (r.1, some "GitException: git checkout master")
    | some s3 =>
      match branch_delete s3 test_branch with
      | none => (s3, some "GitException: git branch -D")
      | some s4 => (s4, r.2)

/-! ## Submodule validator (git.py:171-249)

The three per-submodule git probes are supplied by an environment:
`has_master` models `_check_submodule_has_a_master` (is `origin/master` among
the remote branches), `head_in_master` models
`_check_submodule_head_is_in_master` (is HEAD contained in a remote branch),
and `fast_forward` models `_check_submodule_is_fast_forward`.  That last
probe runs `rev-list -n1 new..old` and returns whether its output is empty —
but the invocation can itself raise: in particular with `old_sha = None`
(no recorded `path<TAB>short-sha` line matched, e.g. a `-`-status submodule
skipped by `submodule foreach`) the range formats as `"<sha>..None"` and
`rev-list` fails, so `.run()` raises a raw `GitException` that propagates out
of `_check_submodule`.  `fast_forward name old_sha = none` models that raw
failure, `some b` a completed probe answering `b`.  `old_shas` are the raw
`path<TAB>short-sha` lines captured before mutation. -/

structure SubmoduleEnv where
  has_master : String → Bool
  head_in_master : String → Bool
  fast_forward : String → Option String → Option Bool

/-- The failure modes escaping `_check_submodule`: the two crafted
`GitException` flavours it raises itself, and a raw `GitException` escaping
the `rev-parse`/`rev-list` invocations of `_check_submodule_is_fast_forward`. -/
inductive SubmoduleError where
  | notPushed (name : String)
  | notFastForward (name : String) (old_sha : Option String)
  | commandFailed (name : String)
deriving DecidableEq, Repr

/-- Python's `line.split('\t')` on the underlying characters (keeps empty
fields, like Python's split with an explicit separator). -/
def splitTabChars : List Char → List (List Char)
  | [] => [[]]
  | c :: cs =>
    if c = '\t' then [] :: splitTabChars cs
    else (c :: (splitTabChars cs).headD []) :: (splitTabChars cs).tail

/-- Python's `line.split('\t')`. -/
def splitTab (line : String) : List String :=
  (splitTabChars line.data).map (fun w => String.mk w)

/-- The `old_sha` lookup loop of `_check_submodule` (git.py:200-204): the last
line starting with the submodule name wins; its second tab-field is taken
(`None` when no line matches). -/
def find_old_sha (name : String) (old_shas : List String) : Option String :=
  old_shas.foldl
    (fun acc line =>
      if strPrefix name line then some ((splitTab line).getD 1 "") else acc)
    none

/-- `_check_submodule` (git.py:171-216).  Note that in the source the
fast-forward check sits OUTSIDE the `has_a_master` conditional: only the
pushed-to-master check is guarded by it. -/
def check_submodule (env : SubmoduleEnv) (old_shas : List String) :
    List String → Except SubmoduleError Unit
  | [] => .ok ()
  | name :: rest =>
    if env.has_master name && !env.head_in_master name then
      .error (.notPushed name)
    else
      match env.fast_forward name (find_old_sha name old_shas) with
      | none => .error (.commandFailed name)
      | some ff =>
        if !ff then .error (.notFastForward name (find_old_sha name old_shas))
        else check_submodule env old_shas rest

/-! ## The in-memory master-commit cache (git.py:751-784)

`GitQueue._sha_exists_in_master` keeps the class-level dict `shas_in_master`
(every stored value is the constant `True`, so it is threaded here as the
list of its keys).  The `git merge-base origin/master SHA` invocation is
supplied as `mergeBase`: `none` models the `GitException` thrown for an
unknown sha, `some mb` the stripped stdout. -/

/-- The "dirty cache expiry mechanism" (git.py:758-761): past 1,000 entries
the whole mapping is replaced by an empty one. -/
def purged (shas_in_master : List String) : List String :=
  if shas_in_master.length > 1000 then [] else shas_in_master

/-- `GitQueue._sha_exists_in_master`, returning the result together with the
new cache contents. -/
def sha_exists_in_master (mergeBase : String → Option String)
    (shas_in_master : List String) (sha : String) : Bool × List String :=
  if sha ∈ purged shas_in_master then (true, purged shas_in_master)
  else
    match mergeBase sha with
    | none => (false, purged shas_in_master)
    | some merge_base =>
      if sha = merge_base then (true, purged shas_in_master ++ [sha])
      else (false, purged shas_in_master)

/-! ## The request data model and the store gateway (git.py:645-749)

A request row of `push_requests`.  Integer ids are modelled as `Nat` (the
source shuttles them through `str`/`int` conversions that are identities on
the values used). -/

structure Request where
  id : Nat
  user : String
  title : String
  repo : String
  branch : String
  revision : String
  state : String
  tags : String
  conflicts : String
  reviewid : Option Nat
deriving DecidableEq, Repr

/-- The column subset passed as `updated_values` to `_update_request`. -/
structure UpdatedValues where
  revision : Option String := none
  tags : Option String := none
  conflicts : Option String := none
deriving DecidableEq, Repr

/-- Apply an update dict to a row. -/
def applyValues (r : Request) (v : UpdatedValues) : Request :=
  { r with
    revision := v.revision.getD r.revision,
    tags := v.tags.getD r.tags,
    conflicts := v.conflicts.getD r.conflicts }

/-- The `push_requests` table, keyed by id. -/
def Store : Type := Nat → Option Request

/-- `GitQueue._update_request` (git.py:720-749): a transactional update
followed by a re-select of the same row.  `ok = false` models the DB error
case in which the transaction commits nothing and the re-select yields no
row, which the code logs and surfaces as `None`. -/
def update_request (ok : Bool) (store : Store) (req : Request)
    (v : UpdatedValues) : Store × Option Request :=
  if ok then
    match store req.id with
    | some r =>
      (fun i => if i = req.id then some (applyValues r v) else store i,
       some (applyValues r v))
    | none => (store, none)
  else (store, none)

/-! ## Verification engine (`GitQueue.verify_branch`, git.py:569-643 and
1148-1296)

The environment supplies the store, the `ls-remote` outcome per request id
(`none` covering both the `GitException` and the branch-not-found row, each
of which yields `None` from `_get_branch_sha_from_repo`), the
`_get_request_with_sha` answer, the configured exclusion tags, and whether
store updates succeed. -/

structure VEnv where
  store : Store
  branchSha : Nat → Option String
  requestWithSha : String → Option Request
  exclude_from_verification : List String
  updateOk : Bool

/-- Observable effects of a verification run: e-mail subjects and
`(right_type, right_token)` webhook pairs. -/
structure VEffects where
  emails : List String
  webhooks : List (String × String)
deriving DecidableEq, Repr

def VEffects.empty : VEffects := ⟨[], []⟩

/-- `GitQueue._get_branch_sha_from_repo` (git.py:569-643): the sampled tip,
plus the failure e-mail sent when sampling fails and `alert` is set. -/
def get_branch_sha_from_repo (env : VEnv) (req : Request) (alert : Bool) :
    Option String × List String :=
  match env.branchSha req.id with
  | some sha => (some sha, [])
  | none =>
    (none,
     if alert then ["[push error] " ++ req.user ++ " - " ++ req.title] else [])

/-- `GitQueue.verify_branch_failure` (git.py:1251-1296): tag transition to
`git-error` (tags only) and a failure e-mail. -/
def verify_branch_failure (updateOk : Bool) (store : Store) (req : Request) :
    Store × VEffects :=
  ((update_request updateOk store req
      { tags := some (verify_error_tags req.tags) }).1,
   ⟨["[push] " ++ req.user ++ " - " ++ req.title], []⟩)

/-- `GitQueue.verify_branch_successful` (git.py:1191-1249): success e-mail
plus the `ref` and `commit` webhooks, and the `review` webhook when
`reviewid` is truthy. -/
def verify_branch_successful (u : Request) : VEffects :=
  ⟨["[push] " ++ u.user ++ " - " ++ u.title],
   [("ref", u.branch), ("commit", u.revision)]
     ++ (match u.reviewid with
         | some rid => if rid ≠ 0 then [("review", toString rid)] else []
         | none => [])⟩

/-- `GitQueue.verify_branch` (git.py:1148-1189). -/
def verify_branch (env : VEnv) (request_id : Nat) : Store × VEffects :=
  match env.store request_id with
  | none => (env.store, VEffects.empty)
  | some req =>
    if tags_contain req.tags env.exclude_from_verification then
      (env.store, VEffects.empty)
    else if req.branch = "" then
      verify_branch_failure env.updateOk env.store req
    else
      match get_branch_sha_from_repo env req true with
      | (none, ems) =>
        let r := verify_branch_failure env.updateOk env.store req
        (r.1, ⟨ems ++ r.2.emails, r.2.webhooks⟩)
      | (some sha, _) =>
        if (match env.requestWithSha sha with
            | some d => (!(d.state == "discarded")) && (!(d.id == req.id))
            | none => false) then
          verify_branch_failure env.updateOk env.store req
        else
          let r := update_request env.updateOk env.store req
            { revision := some sha, tags := some (verify_ok_tags req.tags) }
          match r.2 with
          | some u => (r.1, verify_branch_successful u)
          | none => (r.1, VEffects.empty)

/-! ## Conflict engine (`GitQueue.test_pickme_conflicts`, git.py:786-1082)

The environment supplies every external observation the engine makes; the
working-copy mutations all happen inside the scoped mutators verified above
and have no observable store/queue effect, so they are not tracked here.
`mergeFails pid = some (gitout, giterr)` models `git_merge_pickme` raising
`GitException` for the branch of request `pid`; `none` models success. -/

structure CEnv where
  store : Nat → Option Request
  pushFor : Nat → Option Nat
  idsInPush : Nat → List Nat
  branchSha : Nat → Option String
  shaInMaster : String → Bool
  mergeFails : Nat → Option (String × String)
  updateOk : Bool

/-- `GitTaskAction` (git.py:281-285). -/
def VERIFY_BRANCH : Nat := 1
def TEST_PICKME_CONFLICT : Nat := 2
def TEST_ALL_PICKMES : Nat := 3
def TEST_CONFLICTING_PICKMES : Nat := 4

/-- Observable effects of a conflict-engine run: attempted store updates,
queue insertions `(task_type, request_id, requeue)`, and notification
counts. -/
structure CEffects where
  updates : List (Nat × UpdatedValues)
  enqueues : List (Nat × Nat × Bool)
  emails : Nat
  xmpps : Nat
deriving DecidableEq, Repr

def CEffects.empty : CEffects := ⟨[], [], 0, 0⟩

def CEffects.append (a b : CEffects) : CEffects :=
  ⟨a.updates ++ b.updates, a.enqueues ++ b.enqueues,
   a.emails + b.emails, a.xmpps + b.xmpps⟩

/-- Modelled from its documented behaviour: tornado's `xhtml_escape` (an
external collaborator), escaping the five XML special characters. -/
def xhtml_escape (s : String) : String :=
  String.join (s.data.map (fun c =>
    if c = '&' then "&amp;"
    else if c = '<' then "&lt;"
    else if c = '>' then "&gt;"
    else if c = '"' then "&quot;"
    else if c = '\'' then "&#39;"
    else String.mk [c]))

/-- Whether the peer-loop body of `_test_pickme_conflict_pickme`
(git.py:816-853) reaches the trial merge of the given peer. -/
def peer_is_trial_merged (env : CEnv) (pickme : Nat) : Bool :=
  match env.store pickme with
  | none => false
  | some pd =>
    if !(pd.state == "pickme" || pd.state == "added") then false
    else
      match env.branchSha pickme with
      | none => false
      | some sha =>
        if env.shaInMaster sha then false
        else if !substr "conflict" pd.tags then false
        else if substr "conflict-master" pd.tags then false
        else true

/-- One iteration of the peer loop (git.py:816-874): the `conflict_pickmes`
entries and the effects (queue insertions, sampling-failure e-mail)
contributed by this peer. -/
def peer_step (env : CEnv) (req : Request) (requeue : Bool) (pickme : Nat) :
    List (Nat × String × String) × CEffects :=
  match env.store pickme with
  | none => ([], CEffects.empty)
  | some pd =>
    if !(pd.state == "pickme" || pd.state == "added") then ([], CEffects.empty)
    else
      match env.branchSha pickme with
      | none => ([], ⟨[], [], 1, 0⟩)
      | some sha =>
        if env.shaInMaster sha then ([], CEffects.empty)
        else if !substr "conflict" pd.tags then ([], CEffects.empty)
        else if substr "conflict-master" pd.tags then ([], CEffects.empty)
        else
          match env.mergeFails pickme with
          | none => ([], CEffects.empty)
          | some (gitout, giterr) =>
            ((if req.state == "added" && pd.state == "pickme" then []
              else [(pickme, gitout, giterr)]),
             ⟨[],
              (if requeue && !(pd.state == "added") then
                [(TEST_PICKME_CONFLICT, pickme, false)]
               else []),
              0, 0⟩)

/-- The per-peer block of the `conflicts` HTML (git.py:883-895).  The
`_get_request` used for the peer's title is totalised with `""` on a missing
row (the source would raise `TypeError` there). -/
def formatted_pickme_err (env : CEnv) (bp : Nat × String × String) : String :=
  "<strong>Conflict with <a href=\"/request?id=" ++ toString bp.1
    ++ "\">\n                "
    ++ xhtml_escape (match env.store bp.1 with
        | some pd => pd.title
        | none => "")
    ++ "</a>: </strong><br/>" ++ xhtml_escape bp.2.1 ++ "<br/>"
    ++ xhtml_escape bp.2.2 ++ "\n                <br/><br/>"

/-- `GitQueue._test_pickme_conflict_pickme` (git.py:786-906), returning the
`(conflict, updated_request)` pair and the accumulated effects, or the
`Exception` raised when the final store update fails. -/
def test_pickme_conflict_pickme (env : CEnv) (req : Request) (requeue : Bool) :
    Except String ((Bool × Option Request) × CEffects) :=
  match env.pushFor req.id with
  | none => .ok ((false, none), CEffects.empty)
  | some push_id =>
    let pickme_ids := (env.idsInPush push_id).filter (fun p => ¬ p = req.id)
    let results := pickme_ids.map (peer_step env req requeue)
    let conflict_pickmes := (results.map Prod.fst).flatten
    let eff := (results.map Prod.snd).foldl CEffects.append CEffects.empty
    if conflict_pickmes.isEmpty then .ok ((false, none), eff)
    else
      let formatted := conflict_pickmes.foldl
        (fun acc bp => acc ++ formatted_pickme_err env bp) ""
      let v : UpdatedValues :=
        { tags := some (conflict_pickme_tags req.tags),
          conflicts := some formatted }
      if env.updateOk then
        .ok ((true, some (applyValues req v)),
             CEffects.append eff ⟨[(req.id, v)], [], 0, 0⟩)
      else .error "Failed to update pickme details"

/-- `GitQueue._clear_pickme_conflict_details` (git.py:908-924). -/
def clear_pickme_conflict_details (env : CEnv) (req : Request) :
    Except String CEffects :=
  let v : UpdatedValues :=
    { tags := some (clear_conflict_tags req.tags), conflicts := some "" }
  if env.updateOk then .ok ⟨[(req.id, v)], [], 0, 0⟩
  else .error "Failed to update pickme"

/-- `GitQueue._test_pickme_conflict_master` (git.py:926-983): trial-merge the
candidate onto master inside the scoped mutators; on failure record
`conflict-master`, otherwise continue into the peer trial. -/
def test_pickme_conflict_master (env : CEnv) (req : Request) (requeue : Bool) :
    Except String ((Bool × Option Request) × CEffects) :=
  match env.mergeFails req.id with
  | none => test_pickme_conflict_pickme env req requeue
  | some (gitout, giterr) =>
    let v : UpdatedValues :=
      { tags := some (conflict_master_tags req.tags),
        conflicts := some ("<strong>Conflict with master:</strong><br/> "
          ++ gitout ++ " <br/> " ++ giterr) }
    if env.updateOk then
      .ok ((true, some (applyValues req v)), ⟨[(req.id, v)], [], 0, 0⟩)
    else .error "Failed to update pickme"

/-- `GitQueue.test_pickme_conflicts` (git.py:985-1082).  Working-copy
preparation (fetches) has no observable store/queue effect and is omitted;
the rest follows the source line by line. -/
def test_pickme_conflicts (env : CEnv) (request_id : Nat) (requeue : Bool) :
    Except String CEffects :=
  match env.store request_id with
  | none => .ok CEffects.empty
  | some req =>
    if !(req.state == "pickme" || req.state == "added") then .ok CEffects.empty
    else
      match env.pushFor request_id with
      | none => .ok CEffects.empty
      | some _push_id =>
        match env.branchSha request_id with
        | none => .ok ⟨[], [], 1, 0⟩
        | some sha =>
          if env.shaInMaster sha then .ok CEffects.empty
          else
            match clear_pickme_conflict_details env req with
            | .error e => .error e
            | .ok e1 =>
              match test_pickme_conflict_master env req requeue with
              | .error e => .error e
              | .ok ((conflict, upd), e2) =>
                if conflict then
                  match upd with
                  | none => .error "Encountered merge conflict but was not passed details"
                  | some _u =>
                    .ok (CEffects.append (CEffects.append e1 e2) ⟨[], [], 1, 1⟩)
                else
                  match env.store request_id with
                  | none => .error "TypeError: NoneType"
                  | some req2 =>
                    if substr "conflict" req2.tags then
                      .ok (CEffects.append e1 e2)
                    else
                      let v : UpdatedValues :=
                        { tags := some (no_conflicts_tags req2.tags) }
                      if env.updateOk then
                        .ok (CEffects.append (CEffects.append e1 e2)
                              ⟨[(request_id, v)], [], 0, 0⟩)
                      else .error "Failed to update pickme"

/-! ### Concrete environments used by witnesses and counterexamples -/

/-- Candidate request in state `added` (scenario 5 of the spec). -/
def reqC1 : Request :=
  { id := 1, user := "user1", title := "title1", repo := "svc",
    branch := "feat/x", revision := "", state := "added", tags := "",
    conflicts := "", reviewid := none }

/-- Peer request in state `pickme` tagged `no-conflicts`. -/
def peerC1 : Request :=
  { id := 2, user := "user2", title := "title2", repo := "svc",
    branch := "feat/y", revision := "", state := "pickme",
    tags := "no-conflicts", conflicts := "", reviewid := none }

/-- Environment for the added-privilege trial: the peer's trial merge fails. -/
def envC1 : CEnv :=
  { store := fun i => if i = 1 then some reqC1
      else if i = 2 then some peerC1 else none,
    pushFor := fun i => if i = 1 then some 10 else none,
    idsInPush := fun p => if p = 10 then [1, 2] else [],
    branchSha := fun i => if i = 2 then some "beef" else some "cafe",
    shaInMaster := fun _ => false,
    mergeFails := fun i => if i = 2 then some ("out", "err") else none,
    updateOk := true }

/-- Environment for the peer-filter witness: one loaded peer in state
`pickme` with an unmerged upstream tip. -/
def envC5 : CEnv :=
  { store := fun i => if i = 2 then some peerC1 else none,
    pushFor := fun _ => none,
    idsInPush := fun _ => [],
    branchSha := fun _ => some "beef",
    shaInMaster := fun _ => false,
    mergeFails := fun _ => none,
    updateOk := true }

/-- Environment for the already-merged short-circuit witness: the sampled tip
is reachable from mainline. -/
def envC7 : CEnv :=
  { store := fun i => if i = 2 then some peerC1 else none,
    pushFor := fun _ => some 10,
    idsInPush := fun _ => [],
    branchSha := fun _ => some "aaa",
    shaInMaster := fun _ => true,
    mergeFails := fun _ => none,
    updateOk := true }

/-- Request used by the verification witnesses (spec scenario 1). -/
def reqV : Request :=
  { id := 1, user := "user1", title := "title1", repo := "svc",
    branch := "feat/x", revision := "", state := "requested", tags := "",
    conflicts := "", reviewid := none }

/-- Verification environment in which `ls-remote` answers `deadbeef` and no
duplicate revision exists. -/
def envV3 : VEnv :=
  { store := fun i => if i = 1 then some reqV else none,
    branchSha := fun _ => some "deadbeef",
    requestWithSha := fun _ => none,
    exclude_from_verification := [],
    updateOk := true }

/-- Same verification environment, but every store update fails. -/
def envV10 : VEnv :=
  { store := fun i => if i = 1 then some reqV else none,
    branchSha := fun _ => some "deadbeef",
    requestWithSha := fun _ => none,
    exclude_from_verification := [],
    updateOk := false }

/-! ### Lemmas about the tag-string encoding -/

/-- `splitComma` always yields a head that is a prefix of the input, a tail of
infixes of the input, and only comma-free components. -/
theorem splitComma_shape (cs : List Char) :
    ∃ w0 ws, splitComma cs = w0 :: ws ∧ w0 <+: cs ∧ (∀ w ∈ ws, w <:+: cs)
      ∧ ',' ∉ w0 ∧ (∀ w ∈ ws, ',' ∉ w) := by
  induction cs with
  | nil => exact ⟨[], [], rfl, List.nil_prefix, by simp, by simp, by simp⟩
  | cons c cs ih =>
    rcases ih with ⟨w0, ws, hsplit, hpre, hinf, hc0, hcs⟩
    by_cases hc : c = ','
    · subst hc
      refine ⟨[], w0 :: ws, by simp [splitComma, hsplit], List.nil_prefix, ?_, by simp, ?_⟩
      · intro w hw
        rcases List.mem_cons.mp hw with hw | hw
        · exact hw ▸ (hpre.isInfix.trans (List.infix_cons (List.infix_refl cs)))
        · exact (hinf w hw).trans (List.infix_cons (List.infix_refl cs))
      · intro w hw
        rcases List.mem_cons.mp hw with hw | hw
        · exact hw ▸ hc0
        · exact hcs w hw
    · refine ⟨c :: w0, ws, by simp [splitComma, hc, hsplit], ?_, ?_, ?_, ?_⟩
      · exact List.cons_prefix_cons.mpr ⟨rfl, hpre⟩
      · exact fun w hw => (hinf w hw).trans (List.infix_cons (List.infix_refl cs))
      · intro hm
        rcases List.mem_cons.mp hm with hm | hm
        · exact hc hm.symm
        · exact hc0 hm
      · exact hcs

theorem mem_splitComma_infix {cs w : List Char} (hw : w ∈ splitComma cs) :
    w <:+: cs := by
  rcases splitComma_shape cs with ⟨w0, ws, hsplit, hpre, hinf, _, _⟩
  rw [hsplit] at hw
  rcases List.mem_cons.mp hw with hw | hw
  · exact hw ▸ hpre.isInfix
  · exact hinf w hw

theorem mem_splitComma_not_comma {cs w : List Char}
    (hw : w ∈ splitComma cs) : ',' ∉ w := by
  rcases splitComma_shape cs with ⟨w0, ws, hsplit, _, _, hc0, hcs⟩
  rw [hsplit] at hw
  rcases List.mem_cons.mp hw with hw | hw
  · exact hw ▸ hc0
  · exact hcs w hw

theorem splitComma_no_comma {w : List Char} (hw : ',' ∉ w) :
    splitComma w = [w] := by
  induction w with
  | nil => rfl
  | cons c cs ih =>
    have hc : ¬ c = ',' := fun h => hw (h ▸ List.mem_cons_self c cs)
    have hih := ih (fun h => hw (List.mem_cons_of_mem c h))
    simp [splitComma, hc, hih]

theorem splitComma_append {w cs : List Char} (hw : ',' ∉ w) :
    splitComma (w ++ ',' :: cs) = w :: splitComma cs := by
  induction w with
  | nil => simp [splitComma]
  | cons c w ih =>
    have hc : ¬ c = ',' := fun h => hw (h ▸ List.mem_cons_self c w)
    have hih := ih (fun h => hw (List.mem_cons_of_mem c h))
    simp [splitComma, hc, hih]

theorem mem_tags_str_to_list_infix {s : String} {t : String}
    (ht : t ∈ tags_str_to_list s) : t.data <:+: s.data := by
  simp only [tags_str_to_list, List.mem_filter, List.mem_map] at ht
  rcases ht with ⟨⟨w, hw, hmk⟩, _⟩
  have hdata : t.data = w := by rw [← hmk]
  exact hdata ▸ mem_splitComma_infix hw

/-- A tag string with no occurrence of `needle` has no tag containing
`needle`. -/
theorem not_substr_tags {s needle t : String}
    (hns : substr needle s = false) (ht : t ∈ tags_str_to_list s)
    (hsub : substr needle t = true) : False := by
  have hinf : needle.data <:+: t.data := by simpa [substr] using hsub
  have hts : t.data <:+: s.data := mem_tags_str_to_list_infix ht
  have : substr needle s = true := by
    simp only [substr, decide_eq_true_eq]
    exact hinf.trans hts
  rw [hns] at this
  exact Bool.noConfusion this

/-- A tag produced by decoding a stored string is non-empty and comma-free. -/
theorem tags_str_to_list_wf {s t : String} (ht : t ∈ tags_str_to_list s) :
    ¬ t = "" ∧ ',' ∉ t.data := by
  simp only [tags_str_to_list, List.mem_filter, List.mem_map] at ht
  rcases ht with ⟨⟨w, hw, hmk⟩, hne⟩
  refine ⟨by simpa using hne, ?_⟩
  have hdata : t.data = w := by rw [← hmk]
  rw [hdata]
  exact mem_splitComma_not_comma hw

/-- Decoding after encoding gives back a well-formed tag list. -/
theorem tags_str_to_list_of_list {l : List String}
    (hl : ∀ t ∈ l, ¬ t = "" ∧ ',' ∉ t.data) :
    tags_str_to_list (tags_list_to_str l) = l := by
  induction l with
  | nil => rfl
  | cons t ts ih =>
    cases ts with
    | nil =>
      have hwf := hl t (by simp)
      simp only [tags_list_to_str, tags_str_to_list]
      rw [splitComma_no_comma hwf.2]
      simp [hwf.1]
    | cons t' ts' =>
      have hwf := hl t (by simp)
      have hdata : (t ++ "," ++ tags_list_to_str (t' :: ts')).data
          = t.data ++ ',' :: (tags_list_to_str (t' :: ts')).data := by
        simp [String.data_append]
      simp only [tags_list_to_str, tags_str_to_list] at *
      rw [hdata, splitComma_append hwf.2]
      simp only [List.map_cons, List.filter_cons]
      have hne : (decide ¬ String.mk t.data = "") = true := by
        simp only [decide_eq_true_eq]
        intro h
        exact hwf.1 (by simpa using h)
      rw [hne]
      have ihr := ih (fun u hu => hl u (List.mem_cons_of_mem t hu))
      simp only [tags_str_to_list] at ihr
      simp only [if_pos trivial]
      rw [show String.mk t.data = t from rfl]
      rw [ihr]

theorem tags_str_to_list_add {s tag : String}
    (htag : ¬ tag = "" ∧ ',' ∉ tag.data) :
    tags_str_to_list (add_to_tags_str s tag)
      = (if tag ∈ tags_str_to_list s then tags_str_to_list s
         else tags_str_to_list s ++ [tag]) := by
  by_cases hmem : tag ∈ tags_str_to_list s
  · rw [if_pos hmem]
    unfold add_to_tags_str
    rw [if_pos hmem]
    exact tags_str_to_list_of_list (fun t ht => tags_str_to_list_wf ht)
  · rw [if_neg hmem]
    unfold add_to_tags_str
    rw [if_neg hmem]
    refine tags_str_to_list_of_list (fun t ht => ?_)
    rcases List.mem_append.mp ht with h | h
    · exact tags_str_to_list_wf h
    · simp only [List.mem_singleton] at h
      exact h ▸ htag

theorem tags_str_to_list_del (s tag : String) :
    tags_str_to_list (del_from_tags_str s tag)
      = (tags_str_to_list s).filter (fun t => ¬ t = tag) := by
  unfold del_from_tags_str
  exact tags_str_to_list_of_list
    (fun t ht => tags_str_to_list_wf (List.mem_of_mem_filter ht))

theorem mem_tags_add {s tag t : String} (htag : ¬ tag = "" ∧ ',' ∉ tag.data) :
    t ∈ tags_str_to_list (add_to_tags_str s tag)
      ↔ (t ∈ tags_str_to_list s ∨ t = tag) := by
  rw [tags_str_to_list_add htag]
  split
  · rename_i h
    constructor
    · exact Or.inl
    · rintro (h' | rfl)
      · exact h'
      · exact h
  · simp [List.mem_append]

theorem mem_tags_del {s tag t : String} :
    t ∈ tags_str_to_list (del_from_tags_str s tag)
      ↔ (t ∈ tags_str_to_list s ∧ ¬ t = tag) := by
  rw [tags_str_to_list_del]
  simp [List.mem_filter]

theorem substr_conflict_of_prefixed {t : String}
    (h : strPrefix "conflict-" t = true) : substr "conflict" t = true := by
  simp only [strPrefix, decide_eq_true_eq] at h
  simp only [substr, decide_eq_true_eq]
  exact ((show ("conflict".data <+: "conflict-".data) by decide).trans h).isInfix

theorem tag_invariant_iff (tags : String) :
    tag_invariant tags = true ↔
      (¬("git-ok" ∈ tags_str_to_list tags ∧ "git-error" ∈ tags_str_to_list tags)
       ∧ ¬("no-conflicts" ∈ tags_str_to_list tags
            ∧ ∃ t ∈ tags_str_to_list tags, strPrefix "conflict-" t = true)) := by
  simp only [tag_invariant, git_tags_ok, conflict_tags_ok, hasTag,
    has_conflict_prefix_tag, List.any_eq_true, List.any_eq_false, Bool.and_eq_true,
    Bool.not_eq_true', Bool.and_eq_false_iff, decide_eq_true_eq,
    decide_eq_false_iff_not, not_and, not_exists]
  tauto

theorem verify_ok_tags_invariant {tags : String} (h : tag_invariant tags = true) :
    tag_invariant (verify_ok_tags tags) = true := by
  rw [tag_invariant_iff] at h ⊢
  obtain ⟨hgit, hconf⟩ := h
  constructor
  · rintro ⟨-, hge⟩
    rw [verify_ok_tags, mem_tags_del] at hge
    exact hge.2 rfl
  · rintro ⟨hnc, t, ht, hpre⟩
    rw [verify_ok_tags, mem_tags_del, mem_tags_add (by decide)] at hnc ht
    rcases ht.1 with htL | rfl
    · rcases hnc.1 with hncL | h'
      · exact hconf ⟨hncL, t, htL, hpre⟩
      · exact absurd h' (by decide)
    · exact absurd hpre (by decide)

theorem verify_error_tags_invariant {tags : String} (h : tag_invariant tags = true) :
    tag_invariant (verify_error_tags tags) = true := by
  rw [tag_invariant_iff] at h ⊢
  obtain ⟨hgit, hconf⟩ := h
  constructor
  · rintro ⟨hok, -⟩
    rw [verify_error_tags, mem_tags_del] at hok
    exact hok.2 rfl
  · rintro ⟨hnc, t, ht, hpre⟩
    rw [verify_error_tags, mem_tags_del, mem_tags_add (by decide)] at hnc ht
    rcases ht.1 with htL | rfl
    · rcases hnc.1 with hncL | h'
      · exact hconf ⟨hncL, t, htL, hpre⟩
      · exact absurd h' (by decide)
    · exact absurd hpre (by decide)

theorem conflict_master_tags_invariant {tags : String}
    (h : tag_invariant tags = true) :
    tag_invariant (conflict_master_tags tags) = true := by
  rw [tag_invariant_iff] at h ⊢
  obtain ⟨hgit, hconf⟩ := h
  constructor
  · rintro ⟨hok, hge⟩
    rw [conflict_master_tags, mem_tags_del, mem_tags_add (by decide)] at hok hge
    rcases hok.1 with hokL | h'
    · rcases hge.1 with hgeL | h''
      · exact hgit ⟨hokL, hgeL⟩
      · exact absurd h'' (by decide)
    · exact absurd h' (by decide)
  · rintro ⟨hnc, -⟩
    rw [conflict_master_tags, mem_tags_del] at hnc
    exact hnc.2 rfl

theorem conflict_pickme_tags_invariant {tags : String}
    (h : tag_invariant tags = true) :
    tag_invariant (conflict_pickme_tags tags) = true := by
  rw [tag_invariant_iff] at h ⊢
  obtain ⟨hgit, hconf⟩ := h
  constructor
  · rintro ⟨hok, hge⟩
    rw [conflict_pickme_tags, mem_tags_del, mem_tags_add (by decide)] at hok hge
    rcases hok.1 with hokL | h'
    · rcases hge.1 with hgeL | h''
      · exact hgit ⟨hokL, hgeL⟩
      · exact absurd h'' (by decide)
    · exact absurd h' (by decide)
  · rintro ⟨hnc, -⟩
    rw [conflict_pickme_tags, mem_tags_del] at hnc
    exact hnc.2 rfl

theorem clear_conflict_tags_invariant {tags : String}
    (h : tag_invariant tags = true) :
    tag_invariant (clear_conflict_tags tags) = true := by
  rw [tag_invariant_iff] at h ⊢
  obtain ⟨hgit, hconf⟩ := h
  constructor
  · rintro ⟨hok, hge⟩
    rw [clear_conflict_tags, mem_tags_del, mem_tags_del, mem_tags_del] at hok hge
    exact hgit ⟨hok.1.1.1, hge.1.1.1⟩
  · rintro ⟨hnc, -⟩
    rw [clear_conflict_tags, mem_tags_del] at hnc
    exact hnc.2 rfl

theorem no_conflicts_tags_invariant {tags : String}
    (h : tag_invariant tags = true) (hsub : substr "conflict" tags = false) :
    tag_invariant (no_conflicts_tags tags) = true := by
  rw [tag_invariant_iff] at h ⊢
  obtain ⟨hgit, hconf⟩ := h
  constructor
  · rintro ⟨hok, hge⟩
    rw [no_conflicts_tags, mem_tags_add (by decide)] at hok hge
    rcases hok with hokL | h'
    · rcases hge with hgeL | h''
      · exact hgit ⟨hokL, hgeL⟩
      · exact absurd h'' (by decide)
    · exact absurd h' (by decide)
  · rintro ⟨-, t, ht, hpre⟩
    rw [no_conflicts_tags, mem_tags_add (by decide)] at ht
    rcases ht with htL | rfl
    · exact not_substr_tags hsub htL (substr_conflict_of_prefixed hpre)
    · exact absurd hpre (by decide)

/-- C4: every tag set written by the engine's store updates (verification
success, verification failure, conflict-master tagging, conflict-pickme
tagging, no-conflicts tagging, conflict clearing) preserves the invariant
that `git-ok` and `git-error` are never both present, and that `no-conflicts`
never appears alongside a tag beginning with `conflict-`. -/
theorem C4_tag_invariant_preserved (tags : String)
    (h : tag_invariant tags = true) :
    tag_invariant (verify_ok_tags tags) = true
    ∧ tag_invariant (verify_error_tags tags) = true
    ∧ tag_invariant (conflict_master_tags tags) = true
    ∧ tag_invariant (conflict_pickme_tags tags) = true
    ∧ tag_invariant (clear_conflict_tags tags) = true
    ∧ (substr "conflict" tags = false →
        tag_invariant (no_conflicts_tags tags) = true) :=
  ⟨verify_ok_tags_invariant h, verify_error_tags_invariant h,
   conflict_master_tags_invariant h, conflict_pickme_tags_invariant h,
   clear_conflict_tags_invariant h,
   fun hsub => no_conflicts_tags_invariant h hsub⟩

/-- Witness for C4 at the concrete committed tag set `"git-ok"`. -/
theorem C4_tag_invariant_preserved_witness :
    tag_invariant "git-ok" = true
    ∧ (tag_invariant (verify_ok_tags "git-ok") = true
       ∧ tag_invariant (verify_error_tags "git-ok") = true
       ∧ tag_invariant (conflict_master_tags "git-ok") = true
       ∧ tag_invariant (conflict_pickme_tags "git-ok") = true
       ∧ tag_invariant (clear_conflict_tags "git-ok") = true
       ∧ (substr "conflict" "git-ok" = false →
           tag_invariant (no_conflicts_tags "git-ok") = true)) :=
  ⟨by decide, C4_tag_invariant_preserved "git-ok" (by decide)⟩

/-! ### Scoped mutators (C2) -/

theorem lookupB_setB_self (bs : List (String × String)) (b sha : String) :
    lookupB (setB bs b sha) b = some sha := by
  induction bs with
  | nil => simp [setB, lookupB]
  | cons p rest ih =>
    by_cases hp : p.1 = b
    · simp [setB, hp, lookupB]
    · simp [setB, hp, lookupB, ih]

theorem lookupB_removeB_self (bs : List (String × String)) (b : String) :
    lookupB (removeB bs b) b = none := by
  induction bs with
  | nil => rfl
  | cons p rest ih =>
    by_cases hp : p.1 = b
    · simp [removeB, hp, ih]
    · simp [removeB, hp, lookupB, ih]

/-- C2: each scoped mutator restores the working copy on every exit path and
never suppresses the body's exception.  The trial-merge scope resets the
scope's branch to the commit recorded by `rev-parse` at entry (for any body
that leaves that branch checked out, as the engine's bodies do); the
temporary-branch scope leaves `master` checked out with the temporary branch
deleted (whenever its cleanup commands can succeed, i.e. `master` still
exists in the body's final state and the temporary branch is distinct from
`master` and still present); in both cases the error component of the result
is exactly the body's. -/
theorem C2_scoped_mutators_rollback :
    (∀ (tb : String) (body : GitBody) (s : GitRepo) (r : String),
      rev_parse s tb = some r →
      (body s).1.head = tb →
        rev_parse (git_merge_context_manager tb body s).1 tb = some r
        ∧ (git_merge_context_manager tb body s).2 = (body s).2)
    ∧ (∀ (tb : String) (body : GitBody) (s s1 : GitRepo),
      checkout_new_branch (branch_delete_swallow s tb) "origin/master" tb
          = some s1 →
      ¬ tb = "master" →
      (lookupB (body s1).1.branches "master").isSome = true →
      (lookupB (body s1).1.branches tb).isSome = true →
        (git_branch_context_manager tb body s).1.head = "master"
        ∧ lookupB (git_branch_context_manager tb body s).1.branches tb = none
        ∧ (git_branch_context_manager tb body s).2 = (body s1).2) := by
  constructor
  · intro tb body s r hrev hhead
    have hrev' : lookupB s.branches tb = some r := hrev
    constructor
    · simp only [git_merge_context_manager, rev_parse, hrev', git_reset_to_ref,
        reset_hard, hhead]
      exact lookupB_setB_self _ _ _
    · simp only [git_merge_context_manager, rev_parse, hrev']
  · intro tb body s s1 hs1 htb hm hq
    have hck : checkout (body s1).1 "master"
        = some { branches := (body s1).1.branches, head := "master" } := by
      simp [checkout, hm]
    have hbd : branch_delete
        { branches := (body s1).1.branches, head := "master" } tb
        = some { branches := removeB (body s1).1.branches tb,
                 head := "master" } := by
      simp [branch_delete, htb, hq]
    simp [git_branch_context_manager, hs1, hck, hbd, lookupB_removeB_self]

/-- Witness for C2 at concrete scopes: a trial-merge body that moves the
branch and raises, and a temporary-branch body that does nothing. -/
theorem C2_scoped_mutators_rollback_witness :
    (rev_parse (git_merge_context_manager "t"
        (fun s => (reset_hard s "c9", some "boom")) ⟨[("t", "c0")], "t"⟩).1 "t"
        = some "c0"
     ∧ (git_merge_context_manager "t"
        (fun s => (reset_hard s "c9", some "boom")) ⟨[("t", "c0")], "t"⟩).2
        = ((fun (s : GitRepo) => (reset_hard s "c9", some "boom"))
            ⟨[("t", "c0")], "t"⟩).2)
    ∧ ((git_branch_context_manager "t" (fun s => (s, none))
          ⟨[("origin/master", "m0"), ("master", "m0")], "master"⟩).1.head
          = "master"
       ∧ lookupB (git_branch_context_manager "t" (fun s => (s, none))
          ⟨[("origin/master", "m0"), ("master", "m0")], "master"⟩).1.branches "t"
          = none
       ∧ (git_branch_context_manager "t" (fun s => (s, none))
          ⟨[("origin/master", "m0"), ("master", "m0")], "master"⟩).2
          = ((fun (s : GitRepo) => (s, (none : Option String)))
              ⟨[("origin/master", "m0"), ("master", "m0"), ("t", "m0")], "t"⟩).2) :=
  ⟨C2_scoped_mutators_rollback.1 "t" (fun s => (reset_hard s "c9", some "boom"))
      ⟨[("t", "c0")], "t"⟩ "c0" (by decide) (by decide),
   C2_scoped_mutators_rollback.2 "t" (fun s => (s, none))
      ⟨[("origin/master", "m0"), ("master", "m0")], "master"⟩
      ⟨[("origin/master", "m0"), ("master", "m0"), ("t", "m0")], "t"⟩
      (by decide) (by decide) (by decide) (by decide)⟩

/-! ### Submodule validator (C6) -/

theorem check_submodule_notPushed_has_master {env : SubmoduleEnv}
    {old_shas names : List String} {name : String}
    (h : check_submodule env old_shas names = .error (.notPushed name)) :
    env.has_master name = true := by
  induction names with
  | nil => simp [check_submodule] at h
  | cons n rest ih =>
    simp only [check_submodule] at h
    by_cases h1 : (env.has_master n && !env.head_in_master n) = true
    · rw [if_pos h1] at h
      simp only [Except.error.injEq, SubmoduleError.notPushed.injEq] at h
      subst h
      exact (Bool.and_eq_true _ _).mp h1 |>.1
    · rw [if_neg h1] at h
      cases hff : env.fast_forward n (find_old_sha n old_shas) with
      | none =>
        simp only [hff] at h
        simp at h
      | some b =>
        simp only [hff] at h
        by_cases h2 : (!b) = true
        · rw [if_pos h2] at h
          simp at h
        · rw [if_neg h2] at h
          exact ih h

/-- C6 counterexample: submodule `s` is changed and initialised (its
pre-mutation line `"s\tabc"` was recorded), has no `origin/master` remote
branch, and its `rev-list -n1 new..abc` probe completes with non-empty
output.  `_check_submodule` still raises `SubmoduleNotFastForward`,
contradicting the claim that all remaining checks are skipped for it. -/
theorem C6_counterexample :
    find_old_sha "s" ["s\tabc"] = some "abc"
    ∧ check_submodule
        ⟨fun _ => false, fun _ => false, fun _ _ => some false⟩
        ["s\tabc"] ["s"]
      = .error (.notFastForward "s" (some "abc"))
    ∧ check_submodule
        ⟨fun _ => false, fun _ => false, fun _ _ => some false⟩
        ["s\tabc"] ["s"]
      ≠ .ok () :=
  ⟨rfl, rfl, fun h => Except.noConfusion h⟩

/-- C6 (amended): for a changed submodule with no `origin/master` remote
branch, only the pushed check is skipped — no `SubmoduleNotPushed` can be
raised for it — but the fast-forward check still runs, and raises
`SubmoduleNotFastForward` whenever its `rev-list` probe completes and
reports a non-fast-forward. -/
theorem C6_no_master_skips_only_pushed_check (env : SubmoduleEnv)
    (old_shas names rest : List String) (name : String)
    (hnm : env.has_master name = false)
    (hff : env.fast_forward name (find_old_sha name old_shas) = some false) :
    check_submodule env old_shas names ≠ .error (.notPushed name)
    ∧ check_submodule env old_shas (name :: rest)
        = .error (.notFastForward name (find_old_sha name old_shas)) := by
  constructor
  · intro h
    have := check_submodule_notPushed_has_master h
    rw [hnm] at this
    exact Bool.noConfusion this
  · simp [check_submodule, hnm, hff]

/-- Witness for the amended C6 at a concrete environment with a recorded
pre-mutation sha for the submodule. -/
theorem C6_no_master_skips_only_pushed_check_witness :
    (SubmoduleEnv.has_master
        ⟨fun _ => false, fun _ => true, fun _ _ => some false⟩ "s" = false)
    ∧ (check_submodule ⟨fun _ => false, fun _ => true, fun _ _ => some false⟩
          ["s\tabc"] ["s"]
        ≠ .error (.notPushed "s")
       ∧ check_submodule ⟨fun _ => false, fun _ => true, fun _ _ => some false⟩
          ["s\tabc"] ("s" :: [])
        = .error (.notFastForward "s" (find_old_sha "s" ["s\tabc"]))) :=
  ⟨by decide,
   C6_no_master_skips_only_pushed_check
     ⟨fun _ => false, fun _ => true, fun _ _ => some false⟩
     ["s\tabc"] ["s"] [] "s" (by decide) rfl⟩

/-! ### Master-commit cache (C8, C9) -/

theorem purged_subset {cache : List String} {s : String}
    (h : s ∈ purged cache) : s ∈ cache := by
  unfold purged at h
  split at h
  · simp at h
  · exact h

theorem purged_nil_of_gt {cache : List String} (h : cache.length > 1000) :
    purged cache = [] := by
  simp [purged, h]

theorem purged_length_le (cache : List String) :
    (purged cache).length + 1 ≤ if cache.length > 1000 then 1 else cache.length + 1 := by
  unfold purged
  by_cases h : cache.length > 1000 <;>
    simp only [h, if_true, if_false, List.length_nil] <;> omega

theorem purged_length_le_self (cache : List String) :
    (purged cache).length ≤ if cache.length > 1000 then 1 else cache.length + 1 := by
  unfold purged
  by_cases h : cache.length > 1000 <;>
    simp only [h, if_true, if_false, List.length_nil] <;> omega

/-- C8: the cache only ever gains commit identifiers whose `merge-base`
against `origin/master` is the commit itself (i.e. determined reachable); a
negative answer is never inserted; when the stored mapping exceeds 1,000
entries it is dropped entirely before the lookup, so the cache stays bounded
by its pre-purge size plus one. -/
theorem C8_master_cache_invariants (mergeBase : String → Option String)
    (cache : List String) (sha : String) :
    (∀ s ∈ (sha_exists_in_master mergeBase cache sha).2,
        s ∈ cache ∨ mergeBase s = some s)
    ∧ ((sha_exists_in_master mergeBase cache sha).1 = false →
        (sha_exists_in_master mergeBase cache sha).2 = purged cache)
    ∧ (cache.length > 1000 →
        ∀ s ∈ (sha_exists_in_master mergeBase cache sha).2,
          s = sha ∧ mergeBase s = some s)
    ∧ (sha_exists_in_master mergeBase cache sha).2.length
        ≤ (if cache.length > 1000 then 1 else cache.length + 1) := by
  by_cases hmem : sha ∈ purged cache
  · simp only [sha_exists_in_master, hmem, if_true]
    refine ⟨fun s hs => Or.inl (purged_subset hs), by simp, ?_, ?_⟩
    · intro hlen s hs
      rw [purged_nil_of_gt hlen] at hs
      simp at hs
    · exact purged_length_le_self cache
  · simp only [sha_exists_in_master, hmem, if_false]
    cases hmb : mergeBase sha with
    | none =>
      refine ⟨fun s hs => Or.inl (purged_subset hs), by simp, ?_, ?_⟩
      · intro hlen s hs
        rw [purged_nil_of_gt hlen] at hs
        simp at hs
      · exact purged_length_le_self cache
    | some mb =>
      by_cases heq : sha = mb
      · subst heq
        simp only [eq_self_iff_true, if_true]
        refine ⟨?_, by simp, ?_, ?_⟩
        · intro s hs
          rcases List.mem_append.mp hs with h | h
          · exact Or.inl (purged_subset h)
          · simp only [List.mem_singleton] at h
            exact Or.inr (h ▸ hmb)
        · intro hlen s hs
          rw [purged_nil_of_gt hlen] at hs
          simp only [List.nil_append, List.mem_singleton] at hs
          exact ⟨hs, hs ▸ hmb⟩
        · simp only [List.length_append, List.length_singleton]
          exact purged_length_le cache
      · simp only [if_neg heq]
        refine ⟨fun s hs => Or.inl (purged_subset hs), by simp, ?_, ?_⟩
        · intro hlen s hs
          rw [purged_nil_of_gt hlen] at hs
          simp at hs
        · exact purged_length_le_self cache

/-- Witness for C8's inner implications at a concrete oracle and cache. -/
theorem C8_master_cache_invariants_witness :
    ((∀ s ∈ (sha_exists_in_master (fun _ => none) ["a"] "b").2,
        s ∈ ["a"] ∨ (fun (_ : String) => (none : Option String)) s = some s)
    ∧ ((sha_exists_in_master (fun _ => none) ["a"] "b").1 = false →
        (sha_exists_in_master (fun _ => none) ["a"] "b").2 = purged ["a"])
    ∧ (List.length ["a"] > 1000 →
        ∀ s ∈ (sha_exists_in_master (fun _ => none) ["a"] "b").2,
          s = "b" ∧ (fun (_ : String) => (none : Option String)) s = some s)
    ∧ (sha_exists_in_master (fun _ => none) ["a"] "b").2.length
        ≤ (if List.length ["a"] > 1000 then 1 else List.length ["a"] + 1)) :=
  C8_master_cache_invariants (fun _ => none) ["a"] "b"

/-- C9: when the `merge-base` invocation itself fails (an unknown commit
identifier), the reachability check silently answers `false` instead of
propagating the failure, and inserts nothing in the cache. -/
theorem C9_merge_base_failure_returns_false
    (mergeBase : String → Option String) (cache : List String) (sha : String)
    (hmb : mergeBase sha = none) (hnm : sha ∉ cache) :
    (sha_exists_in_master mergeBase cache sha).1 = false
    ∧ (sha_exists_in_master mergeBase cache sha).2 = purged cache := by
  have hnm1 : sha ∉ purged cache := fun h => hnm (purged_subset h)
  simp [sha_exists_in_master, hnm1, hmb]

/-- Witness for C9: an oracle that fails on the queried sha. -/
theorem C9_merge_base_failure_returns_false_witness :
    (fun (_ : String) => (none : Option String)) "b" = none
    ∧ ("b" ∉ ["a"])
    ∧ ((sha_exists_in_master (fun _ => none) ["a"] "b").1 = false
       ∧ (sha_exists_in_master (fun _ => none) ["a"] "b").2 = purged ["a"]) :=
  ⟨rfl, by decide,
   C9_merge_base_failure_returns_false (fun _ => none) ["a"] "b" rfl (by decide)⟩

/-! ### Verification engine (C3, C10) -/

theorem hasTag_iff {t s : String} :
    hasTag t s = true ↔ t ∈ tags_str_to_list s := by
  simp [hasTag]

theorem hasTag_false_iff {t s : String} :
    hasTag t s = false ↔ t ∉ tags_str_to_list s := by
  simp [hasTag]

theorem hasTag_verify_ok_tags (tags : String) :
    hasTag "git-ok" (verify_ok_tags tags) = true
    ∧ hasTag "git-error" (verify_ok_tags tags) = false := by
  constructor
  · rw [hasTag_iff, verify_ok_tags, mem_tags_del, mem_tags_add (by decide)]
    exact ⟨Or.inr rfl, by decide⟩
  · rw [hasTag_false_iff, verify_ok_tags]
    intro h
    exact (mem_tags_del.mp h).2 rfl

theorem hasTag_verify_error_tags (tags : String) :
    hasTag "git-error" (verify_error_tags tags) = true
    ∧ hasTag "git-ok" (verify_error_tags tags) = false := by
  constructor
  · rw [hasTag_iff, verify_error_tags, mem_tags_del, mem_tags_add (by decide)]
    exact ⟨Or.inr rfl, by decide⟩
  · rw [hasTag_false_iff, verify_error_tags]
    intro h
    exact (mem_tags_del.mp h).2 rfl

theorem verify_branch_failure_spec (store : Store) (req : Request)
    (hreq : store req.id = some req) :
    (verify_branch_failure true store req).1 req.id
      = some { req with tags := verify_error_tags req.tags }
    ∧ (verify_branch_failure true store req).2
      = ⟨["[push] " ++ req.user ++ " - " ++ req.title], []⟩ := by
  constructor
  · simp [verify_branch_failure, update_request, hreq, applyValues]
  · rfl

/-- C3: once `VerifyBranch` has loaded the request, passed the exclusion and
empty-branch guards and sampled tip `sha`: if the store reports another
non-discarded request with the same revision and a different id, the run
takes the failure path (tags-only update adding `git-error` and dropping
`git-ok`, one failure e-mail, no webhook, revision untouched); otherwise the
stored row afterwards has `revision = sha` with `git-ok` added and
`git-error` dropped. -/
theorem C3_verify_branch_duplicate_or_success (env : VEnv) (req : Request)
    (sha : String)
    (hreq : env.store req.id = some req)
    (hexc : tags_contain req.tags env.exclude_from_verification = false)
    (hbr : ¬ req.branch = "")
    (hsha : env.branchSha req.id = some sha)
    (hok : env.updateOk = true) :
    ((match env.requestWithSha sha with
      | some d => ¬ d.state = "discarded" ∧ ¬ d.id = req.id
      | none => False) →
      (verify_branch env req.id).1 req.id
          = some { req with tags := verify_error_tags req.tags }
      ∧ hasTag "git-error" (verify_error_tags req.tags) = true
      ∧ hasTag "git-ok" (verify_error_tags req.tags) = false
      ∧ (verify_branch env req.id).2.emails
          = ["[push] " ++ req.user ++ " - " ++ req.title]
      ∧ (verify_branch env req.id).2.webhooks = [])
    ∧ ((match env.requestWithSha sha with
      | some d => d.state = "discarded" ∨ d.id = req.id
      | none => True) →
      (verify_branch env req.id).1 req.id
          = some { req with revision := sha, tags := verify_ok_tags req.tags }
      ∧ hasTag "git-ok" (verify_ok_tags req.tags) = true
      ∧ hasTag "git-error" (verify_ok_tags req.tags) = false) := by
  have hshaE : get_branch_sha_from_repo env req true = (some sha, []) := by
    simp [get_branch_sha_from_repo, hsha]
  constructor
  · intro hdup
    have hcond : (match env.requestWithSha sha with
        | some d => (!(d.state == "discarded")) && (!(d.id == req.id))
        | none => false) = true := by
      cases h : env.requestWithSha sha with
      | none =>
        rw [h] at hdup
        exact hdup.elim
      | some d =>
        rw [h] at hdup
        simp [hdup.1, hdup.2]
    have hred : verify_branch env req.id
        = verify_branch_failure env.updateOk env.store req := by
      simp [verify_branch, hreq, hexc, hbr, hshaE, hcond]
    rw [hred, hok]
    obtain ⟨h1, h2⟩ := verify_branch_failure_spec env.store req hreq
    exact ⟨h1, (hasTag_verify_error_tags req.tags).1,
      (hasTag_verify_error_tags req.tags).2, by rw [h2], by rw [h2]⟩
  · intro hnd
    have hcond : (match env.requestWithSha sha with
        | some d => (!(d.state == "discarded")) && (!(d.id == req.id))
        | none => false) = false := by
      cases h : env.requestWithSha sha with
      | none => rfl
      | some d =>
        rw [h] at hnd
        rcases hnd with h1 | h1 <;> simp [h1]
    have hupd : update_request env.updateOk env.store req
        { revision := some sha, tags := some (verify_ok_tags req.tags) }
        = (fun i => if i = req.id then
            some (applyValues req
              { revision := some sha, tags := some (verify_ok_tags req.tags) })
           else env.store i,
           some (applyValues req
             { revision := some sha, tags := some (verify_ok_tags req.tags) })) := by
      rw [hok]
      simp [update_request, hreq]
    have hred : verify_branch env req.id
        = ((update_request env.updateOk env.store req
              { revision := some sha,
                tags := some (verify_ok_tags req.tags) }).1,
           verify_branch_successful (applyValues req
             { revision := some sha,
               tags := some (verify_ok_tags req.tags) })) := by
      simp [verify_branch, hreq, hexc, hbr, hshaE, hcond, hupd]
    rw [hred, hupd]
    refine ⟨?_, (hasTag_verify_ok_tags req.tags).1,
      (hasTag_verify_ok_tags req.tags).2⟩
    simp [applyValues]

/-- Witness for C3 at the concrete scenario-1 environment (success branch;
the duplicate branch's hypothesis is vacuously dischargeable). -/
theorem C3_verify_branch_duplicate_or_success_witness :
    ((match envV3.requestWithSha "deadbeef" with
      | some d => ¬ d.state = "discarded" ∧ ¬ d.id = reqV.id
      | none => False) →
      (verify_branch envV3 reqV.id).1 reqV.id
          = some { reqV with tags := verify_error_tags reqV.tags }
      ∧ hasTag "git-error" (verify_error_tags reqV.tags) = true
      ∧ hasTag "git-ok" (verify_error_tags reqV.tags) = false
      ∧ (verify_branch envV3 reqV.id).2.emails
          = ["[push] " ++ reqV.user ++ " - " ++ reqV.title]
      ∧ (verify_branch envV3 reqV.id).2.webhooks = [])
    ∧ ((match envV3.requestWithSha "deadbeef" with
      | some d => d.state = "discarded" ∨ d.id = reqV.id
      | none => True) →
      (verify_branch envV3 reqV.id).1 reqV.id
          = some { reqV with
                   revision := "deadbeef", tags := verify_ok_tags reqV.tags }
      ∧ hasTag "git-ok" (verify_ok_tags reqV.tags) = true
      ∧ hasTag "git-error" (verify_ok_tags reqV.tags) = false) :=
  C3_verify_branch_duplicate_or_success envV3 reqV "deadbeef" rfl (by decide)
    (by decide) rfl rfl

/-- C10: on the success path, when the store update returns no row,
`VerifyBranch` sends no e-mail, emits no webhook, changes nothing, and
returns without raising. -/
theorem C10_update_failure_is_silent (env : VEnv) (req : Request)
    (sha : String)
    (hreq : env.store req.id = some req)
    (hexc : tags_contain req.tags env.exclude_from_verification = false)
    (hbr : ¬ req.branch = "")
    (hsha : env.branchSha req.id = some sha)
    (hnd : (match env.requestWithSha sha with
      | some d => d.state = "discarded" ∨ d.id = req.id
      | none => True))
    (hok : env.updateOk = false) :
    verify_branch env req.id = (env.store, VEffects.empty) := by
  have hshaE : get_branch_sha_from_repo env req true = (some sha, []) := by
    simp [get_branch_sha_from_repo, hsha]
  have hcond : (match env.requestWithSha sha with
      | some d => (!(d.state == "discarded")) && (!(d.id == req.id))
      | none => false) = false := by
    cases h : env.requestWithSha sha with
    | none => rfl
    | some d =>
      rw [h] at hnd
      rcases hnd with h1 | h1 <;> simp [h1]
  have hupd : update_request env.updateOk env.store req
      { revision := some sha, tags := some (verify_ok_tags req.tags) }
      = (env.store, none) := by
    rw [hok]
    rfl
  simp [verify_branch, hreq, hexc, hbr, hshaE, hcond, hupd]

/-- Witness for C10 at the scenario-1 environment with a failing store. -/
theorem C10_update_failure_is_silent_witness :
    verify_branch envV10 reqV.id = (envV10.store, VEffects.empty) :=
  C10_update_failure_is_silent envV10 reqV "deadbeef" rfl (by decide)
    (by decide) rfl trivial rfl

/-! ### Conflict engine (C1, C5, C7) -/

/-- C7: when the candidate's sampled tip is already reachable from mainline,
`TestConflicts` returns before any store mutation: no update, no queue
insertion, no notification. -/
theorem C7_already_merged_short_circuit (env : CEnv) (rid : Nat)
    (req : Request) (sha : String) (p : Nat) (requeue : Bool)
    (hreq : env.store rid = some req)
    (hstate : req.state = "pickme" ∨ req.state = "added")
    (hpush : env.pushFor rid = some p)
    (hsha : env.branchSha rid = some sha)
    (hmaster : env.shaInMaster sha = true) :
    test_pickme_conflicts env rid requeue = .ok CEffects.empty := by
  have hb : (req.state == "pickme" || req.state == "added") = true := by
    rcases hstate with h | h <;> simp [h]
  simp [test_pickme_conflicts, hreq, hb, hpush, hsha, hmaster]

/-- Witness for C7: a pickme whose tip `"aaa"` is reachable from mainline. -/
theorem C7_already_merged_short_circuit_witness :
    test_pickme_conflicts envC7 2 true = .ok CEffects.empty :=
  C7_already_merged_short_circuit envC7 2 peerC1 "aaa" 10 true rfl
    (Or.inl rfl) rfl rfl rfl

/-- C1 counterexample: in the added-privilege configuration (candidate
`added`, peer `pickme`, peer's trial merge fails, `requeue = true`) the
conflict is indeed not recorded, but the peer IS re-enqueued as a
`TEST_PICKME_CONFLICT` task — refuting the claim that the peer is not
re-enqueued. -/
theorem C1_counterexample :
    test_pickme_conflict_pickme envC1 reqC1 true
      = .ok ((false, none),
          ⟨[], [(TEST_PICKME_CONFLICT, 2, false)], 0, 0⟩)
    ∧ ¬ ((⟨[], [(TEST_PICKME_CONFLICT, 2, false)], 0, 0⟩ : CEffects).enqueues
          = []) :=
  ⟨rfl, by decide⟩

/-- C1 (amended): for a peer whose trial merge fails while the candidate is
`added` and the peer is `pickme`, the conflict is not recorded on the
candidate, but the peer IS re-enqueued as a `TEST_PICKME_CONFLICT` with
`requeue = false` whenever `requeue` is set (the requeue block is outside the
privilege branch and the peer is not in state `added`). -/
theorem C1_added_privilege_still_requeues (env : CEnv) (req pd : Request)
    (pickme : Nat) (sha gitout giterr : String) (requeue : Bool)
    (hpd : env.store pickme = some pd)
    (hcand : req.state = "added") (hpeer : pd.state = "pickme")
    (hsha : env.branchSha pickme = some sha)
    (hnm : env.shaInMaster sha = false)
    (htag : substr "conflict" pd.tags = true)
    (hcm : substr "conflict-master" pd.tags = false)
    (hmerge : env.mergeFails pickme = some (gitout, giterr)) :
    (peer_step env req requeue pickme).1 = []
    ∧ (peer_step env req requeue pickme).2.enqueues
        = (if requeue then [(TEST_PICKME_CONFLICT, pickme, false)] else []) := by
  simp [peer_step, hpd, hsha, hnm, htag, hcm, hmerge, hcand, hpeer]

/-- Witness for the amended C1 at the concrete added-privilege environment. -/
theorem C1_added_privilege_still_requeues_witness :
    (peer_step envC1 reqC1 true 2).1 = []
    ∧ (peer_step envC1 reqC1 true 2).2.enqueues
        = (if true then [(TEST_PICKME_CONFLICT, 2, false)] else []) :=
  C1_added_privilege_still_requeues envC1 reqC1 peerC1 2 "beef" "out" "err"
    true rfl rfl rfl rfl rfl (by decide) (by decide) rfl

/-- C5: a loaded peer in state `pickme`/`added` whose existing tip is not
reachable from mainline is trial-merged against the candidate exactly when
the substring `conflict` occurs in its tags and the substring
`conflict-master` does not; in particular a peer tagged only `no-conflicts`
participates, and a peer with no conflict-related tag (e.g. only `git-ok`)
is skipped. -/
theorem C5_peer_filter_substring (env : CEnv) (pickme : Nat) (pd : Request)
    (sha : String)
    (hpd : env.store pickme = some pd)
    (hstate : pd.state = "pickme" ∨ pd.state = "added")
    (hsha : env.branchSha pickme = some sha)
    (hnm : env.shaInMaster sha = false) :
    (peer_is_trial_merged env pickme = true
      ↔ (substr "conflict" pd.tags = true
          ∧ substr "conflict-master" pd.tags = false))
    ∧ (pd.tags = "no-conflicts" → peer_is_trial_merged env pickme = true)
    ∧ (pd.tags = "git-ok" → peer_is_trial_merged env pickme = false) := by
  have hb : (pd.state == "pickme" || pd.state == "added") = true := by
    rcases hstate with h | h <;> simp [h]
  refine ⟨?_, ?_, ?_⟩
  · cases h1 : substr "conflict" pd.tags <;>
      cases h2 : substr "conflict-master" pd.tags <;>
        simp [peer_is_trial_merged, hpd, hb, hsha, hnm, h1, h2]
  · intro ht
    have f1 : substr "conflict" "no-conflicts" = true := by decide
    have f2 : substr "conflict-master" "no-conflicts" = false := by decide
    simp [peer_is_trial_merged, hpd, hb, hsha, hnm, ht, f1, f2]
  · intro ht
    have f3 : substr "conflict" "git-ok" = false := by decide
    simp [peer_is_trial_merged, hpd, hb, hsha, hnm, ht, f3]

/-- Witness for C5 at a concrete peer tagged `no-conflicts`. -/
theorem C5_peer_filter_substring_witness :
    ((peer_is_trial_merged envC5 2 = true
      ↔ (substr "conflict" peerC1.tags = true
          ∧ substr "conflict-master" peerC1.tags = false))
    ∧ (peerC1.tags = "no-conflicts" → peer_is_trial_merged envC5 2 = true)
    ∧ (peerC1.tags = "git-ok" → peer_is_trial_merged envC5 2 = false)) :=
  C5_peer_filter_substring envC5 2 peerC1 "beef" rfl (Or.inl rfl) rfl rfl

end Pushmanager
